import Mathlib

/-!
# TaskFlow: a shallow embedding of `src/main.rs`

This file embeds the data model and the operations of the TaskFlow CLI
(`src/main.rs`) and proves the specification's testable properties about them.

Modelling conventions:
* Rust structs/enums become Lean structures/inductives with the same field and
  variant names (`Task`, `Config`, `Repository`, `Priority`, `Status`).
* The two on-disk records (`config.json`, `tasks.json`) are modelled by an `FS`
  record holding each file's contents as `Option String` (`none` = absent).
* `serde_json::to_string_pretty` is modelled by a concrete pretty-printer
  (`renderTasks` / `renderConfig`) that reproduces serde_json's pretty format
  (two-space indent, `": "` separators, field order = declaration order,
  string escaping with `\"`, `\\`, `\b`, `\t`, `\n`, `\f`, `\r` and `\u00XX`
  for the remaining control characters).
* `serde_json::from_str` is modelled by a concrete whitespace-tolerant parser
  (`parseTasks` / `parseConfig`) for those records.
* Interactive prompts (dialoguer) are modelled as explicit parameters; the
  remote GitHub calls are modelled by their result (`Except Unit Nat` for
  `create_issue`, `Except Unit Unit` for repository verification), since the
  HTTP client is an external collaborator.  Terminal colors and the progress
  bar are cosmetic and elided; printed messages are returned as `List String`.
* Machine integers (`usize`, `u64`) are modelled as `Nat`: the program only
  ever stores and prints them, so no overflow is observable.
-/

namespace TaskFlow

/-- `enum Priority { Low, Medium, High }` (src/main.rs:11-16). -/
inductive Priority where
  | Low
  | Medium
  | High
deriving DecidableEq

/-- `enum Status { Todo, InProgress, NeedsHelp, Done }` (src/main.rs:18-24). -/
inductive Status where
  | Todo
  | InProgress
  | NeedsHelp
  | Done
deriving DecidableEq

/-- `struct Repository` (src/main.rs:32-37). -/
structure Repository where
  owner : String
  name : String
  display_name : String
deriving DecidableEq

/-- `struct Config` (src/main.rs:26-30). -/
structure Config where
  github_token : Option String
  repositories : List Repository
deriving DecidableEq

/-- `struct Task` (src/main.rs:39-49).  `id : usize` and
`github_issue_number : Option<u64>` are modelled as `Nat`. -/
structure Task where
  id : Nat
  title : String
  description : String
  priority : Priority
  status : Status
  due_date : String
  github_issue_number : Option Nat
  created_at : String
deriving DecidableEq

/-! ## The serialized form: a model of `serde_json::to_string_pretty`

`save_tasks` (src/main.rs:386-391) and `save_config` (src/main.rs:368-373)
serialize the full record with `serde_json::to_string_pretty`.  The printer
below reproduces that output character for character for the two record
shapes the program writes. -/

/-- serde_json escapes `"`, `\`, the named control characters, and every other
character below `0x20` as `\u00XX` (lowercase hex); all other characters are
emitted raw. -/
def escapeChar (c : Char) : List Char :=
  if c = '"' then ['\\', '"']
  else if c = '\\' then ['\\', '\\']
  else if c = '\x08' then ['\\', 'b']
  else if c = '\x09' then ['\\', 't']
  else if c = '\x0a' then ['\\', 'n']
  else if c = '\x0c' then ['\\', 'f']
  else if c = '\x0d' then ['\\', 'r']
  else if c.toNat < 32 then
    ['\\', 'u', '0', '0', Nat.digitChar (c.toNat / 16), Nat.digitChar (c.toNat % 16)]
  else [c]

/-- A JSON string literal: quote, escaped contents, quote. -/
def renderString (s : String) : List Char :=
  '"' :: s.data.flatMap escapeChar ++ ['"']

/-- Decimal digits of `n`, most significant first, prepended to `acc`.
The first argument is fuel (any bound `> n` works), making the recursion
structural and hence kernel-reducible. -/
def natChars : Nat → Nat → List Char → List Char
  | 0, _, acc => acc
  | fuel + 1, n, acc =>
    if n < 10 then Nat.digitChar n :: acc
    else natChars fuel (n / 10) (Nat.digitChar (n % 10) :: acc)

/-- The decimal rendering of `n` (serde_json prints `usize`/`u64` in decimal). -/
def renderNat (n : Nat) : List Char :=
  natChars (n + 1) n []

/-- `Option<u64>`: `None` prints as `null`, `Some(n)` as the bare number. -/
def renderOptNat : Option Nat → List Char
  | none => ['n', 'u', 'l', 'l']
  | some n => renderNat n

/-- `Option<String>`: `None` prints as `null`, `Some(s)` as a string literal. -/
def renderOptString : Option String → List Char
  | none => ['n', 'u', 'l', 'l']
  | some s => renderString s

/-- A unit enum variant serializes as its name in quotes. -/
def renderPriority : Priority → List Char
  | .Low => renderString "Low"
  | .Medium => renderString "Medium"
  | .High => renderString "High"

def renderStatus : Status → List Char
  | .Todo => renderString "Todo"
  | .InProgress => renderString "InProgress"
  | .NeedsHelp => renderString "NeedsHelp"
  | .Done => renderString "Done"

/-- Newline followed by `k` levels of serde's two-space indent. -/
def nl0 : List Char := ['\n']
def nl1 : List Char := ['\n', ' ', ' ']
def nl2 : List Char := ['\n', ' ', ' ', ' ', ' ']
def nl3 : List Char := ['\n', ' ', ' ', ' ', ' ', ' ', ' ']

/-- One pretty-printed object member: `"key": value`. -/
def fieldChars (key : String) (v : List Char) : List Char :=
  renderString key ++ ':' :: ' ' :: v

/-- One `Task`, pretty-printed as an element of the top-level array (braces at
indent 1, fields at indent 2), exactly as `to_string_pretty` lays it out. -/
def renderTask (t : Task) : List Char :=
  '\x7b' :: nl2
  ++ fieldChars "id" (renderNat t.id) ++ ',' :: nl2
  ++ fieldChars "title" (renderString t.title) ++ ',' :: nl2
  ++ fieldChars "description" (renderString t.description) ++ ',' :: nl2
  ++ fieldChars "priority" (renderPriority t.priority) ++ ',' :: nl2
  ++ fieldChars "status" (renderStatus t.status) ++ ',' :: nl2
  ++ fieldChars "due_date" (renderString t.due_date) ++ ',' :: nl2
  ++ fieldChars "github_issue_number" (renderOptNat t.github_issue_number) ++ ',' :: nl2
  ++ fieldChars "created_at" (renderString t.created_at)
  ++ nl1 ++ ['\x7d']

/-- The `Vec<Task>` record: `[]` when empty, otherwise one element per line. -/
def renderTasks : List Task → List Char
  | [] => ['[', ']']
  | t :: ts =>
    '[' :: nl1 ++ renderTask t
      ++ ts.flatMap (fun t' => ',' :: nl1 ++ renderTask t')
      ++ nl0 ++ [']']

/-- `serde_json::to_string_pretty(&self.tasks)`. -/
def tasksToString (ts : List Task) : String :=
  String.mk (renderTasks ts)

/-- One `Repository`, pretty-printed as an element of the `repositories` array
(braces at indent 2, fields at indent 3). -/
def renderRepository (r : Repository) : List Char :=
  '\x7b' :: nl3
  ++ fieldChars "owner" (renderString r.owner) ++ ',' :: nl3
  ++ fieldChars "name" (renderString r.name) ++ ',' :: nl3
  ++ fieldChars "display_name" (renderString r.display_name)
  ++ nl2 ++ ['\x7d']

def renderRepositories : List Repository → List Char
  | [] => ['[', ']']
  | r :: rs =>
    '[' :: nl2 ++ renderRepository r
      ++ rs.flatMap (fun r' => ',' :: nl2 ++ renderRepository r')
      ++ nl1 ++ [']']

/-- The `Config` record, pretty-printed. -/
def renderConfig (c : Config) : List Char :=
  '\x7b' :: nl1
  ++ fieldChars "github_token" (renderOptString c.github_token) ++ ',' :: nl1
  ++ fieldChars "repositories" (renderRepositories c.repositories)
  ++ nl0 ++ ['\x7d']

/-- `serde_json::to_string_pretty(&self.config)`. -/
def configToString (c : Config) : String :=
  String.mk (renderConfig c)

/-! ## A model of `serde_json::from_str` for the two record shapes

`load_tasks` (src/main.rs:375-384) and `load_or_create_config`
(src/main.rs:111-125) parse the records back with `serde_json::from_str`.
The parser below accepts JSON in the layout the printer produces (and is
whitespace-tolerant like serde's parser); any other input fails with `none`,
modelling a `serde_json::Error`. -/

def isWs (c : Char) : Bool :=
  c = ' ' || c = '\n' || c = '\t' || c = '\r'

def isDigit (c : Char) : Bool :=
  '0' ≤ c && c ≤ '9'

def skipWs : List Char → List Char
  | [] => []
  | c :: cs => if isWs c then skipWs cs else c :: cs

/-- Skip whitespace, then consume exactly the character `c`. -/
def pChar (c : Char) (l : List Char) : Option (List Char) :=
  match skipWs l with
  | c' :: rest => if c' = c then some rest else none
  | [] => none

/-- Split off the longest leading run of decimal digits. -/
def takeDigits : List Char → List Char × List Char
  | [] => ([], [])
  | c :: cs =>
    if isDigit c then
      let (ds, r) := takeDigits cs
      (c :: ds, r)
    else ([], c :: cs)

/-- The numeric value of a digit run, most significant digit first. -/
def digitsVal (ds : List Char) : Nat :=
  ds.foldl (fun v c => v * 10 + (c.toNat - '0'.toNat)) 0

/-- Parse a nonnegative decimal integer. -/
def pNat (l : List Char) : Option (Nat × List Char) :=
  let l' := skipWs l
  let (ds, r) := takeDigits l'
  if ds.isEmpty then none else some (digitsVal ds, r)

/-- The value of one hex digit (`0-9`, `a-f`, `A-F`), by code point. -/
def hexVal (c : Char) : Option Nat :=
  let n := c.toNat
  if 48 ≤ n ∧ n ≤ 57 then some (n - 48)
  else if 97 ≤ n ∧ n ≤ 102 then some (n - 87)
  else if 65 ≤ n ∧ n ≤ 70 then some (n - 55)
  else none

/-- Undo a single-character escape (`\"`, `\\`, `\/`, `\b`, `\f`, `\n`, `\r`, `\t`). -/
def unescapeChar : Char → Option Char
  | '"' => some '"'
  | '\\' => some '\\'
  | '/' => some '/'
  | 'b' => some '\x08'
  | 'f' => some '\x0c'
  | 'n' => some '\x0a'
  | 'r' => some '\x0d'
  | 't' => some '\x09'
  | _ => none

/-- Parse the body of a string literal (after the opening quote), undoing
escapes, up to and including the closing quote.  Raw control characters are
rejected, as serde does. -/
def pStringBody : List Char → Option (List Char × List Char)
  | [] => none
  | c :: cs =>
    if c = '"' then some ([], cs)
    else if c = '\\' then
      match cs with
      | [] => none
      | e :: cs₂ =>
        if e = 'u' then
          match cs₂ with
          | h₁ :: h₂ :: h₃ :: h₄ :: cs₃ =>
            match hexVal h₁, hexVal h₂, hexVal h₃, hexVal h₄ with
            | some v₁, some v₂, some v₃, some v₄ =>
              match pStringBody cs₃ with
              | some (s, r) =>
                some (Char.ofNat (((v₁ * 16 + v₂) * 16 + v₃) * 16 + v₄) :: s, r)
              | none => none
            | _, _, _, _ => none
          | _ => none
        else
          match unescapeChar e with
          | some c' =>
            match pStringBody cs₂ with
            | some (s, r) => some (c' :: s, r)
            | none => none
          | none => none
    else if c.toNat < 32 then none
    else
      match pStringBody cs with
      | some (s, r) => some (c :: s, r)
      | none => none

/-- Parse a JSON string literal. -/
def pString (l : List Char) : Option (String × List Char) :=
  match skipWs l with
  | c :: rest =>
    if c = '"' then
      match pStringBody rest with
      | some (s, r) => some (String.mk s, r)
      | none => none
    else none
  | [] => none

/-- Parse an object key: the exact string `key` followed by a colon. -/
def pKey (key : String) (l : List Char) : Option (List Char) :=
  match pString l with
  | some (k, r) => if k = key then pChar ':' r else none
  | none => none

/-- Parse `null` or a nonnegative integer (the `Option<u64>` field). -/
def pOptNat (l : List Char) : Option (Option Nat × List Char) :=
  let l' := skipWs l
  if l'.take 4 = ['n', 'u', 'l', 'l'] then some (none, l'.drop 4)
  else
    match pNat l' with
    | some (n, r) => some (some n, r)
    | none => none

/-- Parse `null` or a string literal (the `Option<String>` field). -/
def pOptString (l : List Char) : Option (Option String × List Char) :=
  let l' := skipWs l
  if l'.take 4 = ['n', 'u', 'l', 'l'] then some (none, l'.drop 4)
  else
    match pString l' with
    | some (s, r) => some (some s, r)
    | none => none

def pPriority (l : List Char) : Option (Priority × List Char) :=
  match pString l with
  | some ("Low", r) => some (.Low, r)
  | some ("Medium", r) => some (.Medium, r)
  | some ("High", r) => some (.High, r)
  | _ => none

def pStatus (l : List Char) : Option (Status × List Char) :=
  match pString l with
  | some ("Todo", r) => some (.Todo, r)
  | some ("InProgress", r) => some (.InProgress, r)
  | some ("NeedsHelp", r) => some (.NeedsHelp, r)
  | some ("Done", r) => some (.Done, r)
  | _ => none

/-- Parse one object member `"key": value` followed by the separating comma. -/
def pFieldComma {α : Type} (key : String) (p : List Char → Option (α × List Char))
    (l : List Char) : Option (α × List Char) :=
  match pKey key l with
  | none => none
  | some l₂ =>
    match p l₂ with
    | none => none
    | some (a, l₃) =>
      match pChar ',' l₃ with
      | some l₄ => some (a, l₄)
      | none => none

/-- Parse the last object member `"key": value` (no trailing comma). -/
def pFieldLast {α : Type} (key : String) (p : List Char → Option (α × List Char))
    (l : List Char) : Option (α × List Char) :=
  match pKey key l with
  | none => none
  | some l₂ => p l₂

/-- Parse one `Task` object (fields in declaration order, as serde emits and
the derived `Deserialize` accepts). -/
def pTask (l : List Char) : Option (Task × List Char) := do
  let l ← pChar '\x7b' l
  let (tid, l) ← pFieldComma "id" pNat l
  let (title, l) ← pFieldComma "title" pString l
  let (description, l) ← pFieldComma "description" pString l
  let (priority, l) ← pFieldComma "priority" pPriority l
  let (status, l) ← pFieldComma "status" pStatus l
  let (due_date, l) ← pFieldComma "due_date" pString l
  let (ghin, l) ← pFieldComma "github_issue_number" pOptNat l
  let (created_at, l) ← pFieldLast "created_at" pString l
  let l ← pChar '\x7d' l
  pure (⟨tid, title, description, priority, status, due_date, ghin, created_at⟩, l)

/-- Parse the `, task` repetitions and the closing bracket.  `fuel` bounds the
number of iterations; each iteration consumes at least the comma, so the
initial fuel `input length + 1` never runs out before a genuine parse error. -/
def pTasksAux : Nat → List Task → List Char → Option (List Task × List Char)
  | 0, _, _ => none
  | fuel + 1, acc, l =>
    match pChar ']' l with
    | some rest => some (acc.reverse, rest)
    | none => do
      let l ← pChar ',' l
      let (t, l) ← pTask l
      pTasksAux fuel (t :: acc) l

/-- Parse the top-level `Vec<Task>` array. -/
def pTasks (l : List Char) : Option (List Task × List Char) := do
  let l₁ ← pChar '[' l
  match pChar ']' l₁ with
  | some rest => some ([], rest)
  | none => do
    let (t, l₂) ← pTask l₁
    pTasksAux (l₂.length + 1) [t] l₂

/-- `serde_json::from_str::<Vec<Task>>`: the whole input must be one array
plus trailing whitespace. -/
def parseTasks (s : String) : Option (List Task) :=
  match pTasks s.data with
  | some (ts, rest) => if skipWs rest = [] then some ts else none
  | none => none

/-- Parse one `Repository` object. -/
def pRepository (l : List Char) : Option (Repository × List Char) := do
  let l ← pChar '\x7b' l
  let (owner, l) ← pFieldComma "owner" pString l
  let (rname, l) ← pFieldComma "name" pString l
  let (display_name, l) ← pFieldLast "display_name" pString l
  let l ← pChar '\x7d' l
  pure (⟨owner, rname, display_name⟩, l)

def pRepositoriesAux : Nat → List Repository → List Char → Option (List Repository × List Char)
  | 0, _, _ => none
  | fuel + 1, acc, l =>
    match pChar ']' l with
    | some rest => some (acc.reverse, rest)
    | none => do
      let l ← pChar ',' l
      let (r, l) ← pRepository l
      pRepositoriesAux fuel (r :: acc) l

def pRepositories (l : List Char) : Option (List Repository × List Char) := do
  let l₁ ← pChar '[' l
  match pChar ']' l₁ with
  | some rest => some ([], rest)
  | none => do
    let (r, l₂) ← pRepository l₁
    pRepositoriesAux (l₂.length + 1) [r] l₂

/-- Parse the `Config` object. -/
def pConfig (l : List Char) : Option (Config × List Char) := do
  let l ← pChar '\x7b' l
  let (tok, l) ← pFieldComma "github_token" pOptString l
  let (repos, l) ← pFieldLast "repositories" pRepositories l
  let l ← pChar '\x7d' l
  pure (⟨tok, repos⟩, l)

/-- `serde_json::from_str::<Config>`. -/
def parseConfig (s : String) : Option Config :=
  match pConfig s.data with
  | some (c, rest) => if skipWs rest = [] then some c else none
  | none => none

/-! ## The Task Manager state and its operations

`struct TaskManager` (src/main.rs:51-57) owns the in-memory task list, the
optional GitHub client, the configuration and the current repository
selection.  The `Octocrab` client carries no state the program reads, so it
is modelled by `Option Unit` (present/absent).  The single `save_path` is
modelled by the `FS` record holding the two files the program reads/writes. -/

/-- The two on-disk records under the config directory: `config.json` and
`tasks.json`.  `none` means the file does not exist. -/
structure FS where
  configFile : Option String
  tasksFile : Option String
deriving DecidableEq

/-- `struct TaskManager` (src/main.rs:51-57), minus the path (see `FS`). -/
structure TaskManager where
  tasks : List Task
  github : Option Unit
  config : Config
  current_repo : Option Repository
deriving DecidableEq

/-- `save_tasks` (src/main.rs:386-391): serialize the full task list with
`to_string_pretty` and overwrite `tasks.json`. -/
def TaskManager.save_tasks (tm : TaskManager) (fs : FS) : FS :=
  { fs with tasksFile := some (tasksToString tm.tasks) }

/-- `save_config` (src/main.rs:368-373): serialize the full configuration and
overwrite `config.json`. -/
def TaskManager.save_config (tm : TaskManager) (fs : FS) : FS :=
  { fs with configFile := some (configToString tm.config) }

/-- `load_tasks` (src/main.rs:375-384): missing file → `Ok(vec![])`; existing
file that fails to parse → `Err` (the serde error). -/
def TaskManager.load_tasks (tasksFile : Option String) : Except Unit (List Task) :=
  match tasksFile with
  | none => Except.ok []
  | some data =>
    match parseTasks data with
    | some ts => Except.ok ts
    | none => Except.error ()

/-- The startup call site `Self::load_tasks(&save_path).unwrap_or_else(|_| Vec::new())`
(src/main.rs:73): a failed load is replaced by the empty list. -/
def TaskManager.startupTasks (tasksFile : Option String) : List Task :=
  match TaskManager.load_tasks tasksFile with
  | Except.ok ts => ts
  | Except.error _ => []

/-- Outcome of `load_or_create_config`: either a configuration (with the file
contents written when a default was created), or a fatal `expect` abort. -/
inductive ConfigLoad where
  | loaded (c : Config) (written : Option String)
  | fatal (msg : String)
deriving DecidableEq

/-- `load_or_create_config` (src/main.rs:111-125): an existing `config.json`
that fails to parse aborts the process (`expect("Failed to parse config")`);
a missing file is replaced by a default configuration that is written out
immediately. -/
def TaskManager.load_or_create_config (configFile : Option String) : ConfigLoad :=
  match configFile with
  | some data =>
    match parseConfig data with
    | some c => ConfigLoad.loaded c none
    | none => ConfigLoad.fatal "Failed to parse config"
  | none =>
    let c : Config := { github_token := none, repositories := [] }
    ConfigLoad.loaded c (some (configToString c))

/-- The prompted inputs of `add_task` (src/main.rs:209-237) plus the
`Local::now()` timestamp of src/main.rs:247, which is an input to the model. -/
structure AddTaskInput where
  title : String
  description : String
  priority : Priority
  due_date : String
  created_at : String
deriving DecidableEq

/-- `add_task` (src/main.rs:206-290).  `createChoice` is the index returned by
the `Create GitHub issue?` select (`0` = Yes); `issueResult` is the outcome of
the `create_issue` call, carrying the created issue's number on success.  The
returned `List String` holds the messages printed after the prompts (the
progress bar is cosmetic and elided).  Note that the `Task` is built before
the GitHub branch runs and is never touched by it: on `Ok(issue)` the code
only prints the issue URL (src/main.rs:264-268). -/
def TaskManager.add_task (tm : TaskManager) (fs : FS) (inp : AddTaskInput)
    (createChoice : Nat) (issueResult : Except Unit Nat) :
    TaskManager × FS × List String :=
  let task : Task :=
    { id := tm.tasks.length
      title := inp.title
      description := inp.description
      priority := inp.priority
      status := Status.Todo
      due_date := inp.due_date
      github_issue_number := none
      created_at := inp.created_at }
  let msgs : List String :=
    match tm.github, tm.current_repo with
    | some _, some repo =>
      if createChoice = 0 then
        match issueResult with
        | Except.ok n =>
          ["✅ GitHub issue created!",
           "View it at: https://github.com/" ++ repo.owner ++ "/" ++ repo.name
             ++ "/issues/" ++ String.mk (renderNat n)]
        | Except.error _ => ["⚠️  Couldn't create GitHub issue"]
      else []
    | _, _ => []
  let tm' : TaskManager := { tm with tasks := tm.tasks ++ [task] }
  (tm', tm'.save_tasks fs, msgs ++ ["✅ Task added successfully!"])

/-- `add_repository` (src/main.rs:143-180).  The three strings are the
prompted inputs; `verifyResult` is the outcome of the
`github.repos(owner, name).get()` verification call.  When no client exists
the whole `if let Some(github)` block is skipped and nothing is added. -/
def TaskManager.add_repository (tm : TaskManager) (fs : FS)
    (owner rname display_name : String) (verifyResult : Except Unit Unit) :
    TaskManager × FS × List String :=
  match tm.github with
  | some _ =>
    match verifyResult with
    | Except.ok _ =>
      let repo : Repository := { owner := owner, name := rname, display_name := display_name }
      let tm' : TaskManager :=
        { tm with config := { tm.config with repositories := tm.config.repositories ++ [repo] } }
      (tm', tm'.save_config fs, ["✅ Repository verified!"])
    | Except.error _ =>
      (tm, fs, ["⚠️  Could not access repository. Please check the details and your permissions."])
  | none => (tm, fs, [])

/-- The `match status_idx` of src/main.rs:357-362. -/
def statusOfIdx : Nat → Status
  | 0 => Status.Todo
  | 1 => Status.InProgress
  | 2 => Status.NeedsHelp
  | _ => Status.Done

/-- `update_task` (src/main.rs:333-366).  `task_idx`/`status_idx` are the two
select results.  An empty list returns early with a message and no save.
`none` models the `self.tasks[task_idx]` index panic, which the menu cannot
reach because the select is built over the task list itself. -/
def TaskManager.update_task (tm : TaskManager) (fs : FS) (task_idx status_idx : Nat) :
    Option (TaskManager × FS × List String) :=
  if tm.tasks.isEmpty then
    some (tm, fs, ["No tasks to update."])
  else
    match tm.tasks[task_idx]? with
    | none => none
    | some t =>
      let tm' : TaskManager :=
        { tm with tasks := tm.tasks.set task_idx { t with status := statusOfIdx status_idx } }
      some (tm', tm'.save_tasks fs, ["✅ Task updated!"])

def statusIcon : Status → String
  | Status.Todo => "🆕"
  | Status.InProgress => "🔄"
  | Status.NeedsHelp => "🆘"
  | Status.Done => "✅"

def priorityIcon : Priority → String
  | Priority.Low => "⭐"
  | Priority.Medium => "⭐⭐"
  | Priority.High => "⭐⭐⭐"

/-- The per-task block printed by `list_tasks` (src/main.rs:301-330), with the
terminal coloring elided. -/
def taskLine (t : Task) : String :=
  statusIcon t.status ++ " " ++ t.title ++ " " ++ priorityIcon t.priority ++ "\n"
    ++ t.description ++ "\nDue: " ++ t.due_date ++ "\nCreated: " ++ t.created_at

/-- `list_tasks` (src/main.rs:292-331): takes `&self`, renders the list in
insertion order, and returns early on an empty list. -/
def TaskManager.list_tasks (tm : TaskManager) : List String :=
  if tm.tasks.isEmpty then ["No tasks found."]
  else
    "📋 Your Tasks" :: String.mk (List.replicate 50 '=') :: tm.tasks.map taskLine

/-- The status subsequence backing one board column: the code's
`self.tasks.iter().filter(|t| t.status == *status)` (src/main.rs:471-474 and
482-485), read top to bottom via `.nth(i)`. -/
def column (s : Status) (tasks : List Task) : List Task :=
  tasks.filter (fun t => decide (t.status = s))

/-- `show_kanban_board` (src/main.rs:447-500): takes `&self` and derives the
four labeled columns in the fixed order of the `columns` array
(src/main.rs:451-456); widths and colors are cosmetic and elided. -/
def TaskManager.show_kanban_board (tm : TaskManager) : List (String × List Task) :=
  [("📋 TO DO", column Status.Todo tm.tasks),
   ("🔄 IN PROGRESS", column Status.InProgress tm.tasks),
   ("🆘 NEEDS HELP", column Status.NeedsHelp tm.tasks),
   ("✅ DONE", column Status.Done tm.tasks)]

/-- A sequence of `add_task` calls, each with its prompted input, its
`Create GitHub issue?` choice and its remote outcome, run left to right. -/
def runAddTasks : List (AddTaskInput × Nat × Except Unit Nat) → TaskManager → FS → TaskManager × FS
  | [], tm, fs => (tm, fs)
  | (inp, choice, res) :: rest, tm, fs =>
    let r := tm.add_task fs inp choice res
    runAddTasks rest r.1 r.2.1

/-- `rest` does not start with a decimal digit (so a digit run ends there). -/
def headNonDigit : List Char → Bool
  | [] => true
  | c :: _ => !(isDigit c)

/-! ## Concrete fixtures, used to instantiate the theorems below on closed inputs -/

def fsEmpty : FS := { configFile := none, tasksFile := none }

def configEmpty : Config := { github_token := none, repositories := [] }

def exTask (tid : Nat) (st : Status) : Task :=
  { id := tid
    title := "Write spec"
    description := ""
    priority := Priority.Medium
    status := st
    due_date := "tomorrow"
    github_issue_number := none
    created_at := "January 1, 2025" }

def repoEx : Repository := { owner := "octo", name := "hello", display_name := "Hello" }

/-- A session with no remote client and an empty Task Store. -/
def tmEmpty : TaskManager :=
  { tasks := [], github := none, config := configEmpty, current_repo := none }

/-- A session with no remote client and one task. -/
def tmOne : TaskManager :=
  { tasks := [exTask 0 Status.Todo], github := none, config := configEmpty,
    current_repo := none }

/-- The spec's board scenario: three tasks with statuses Todo, Done, InProgress. -/
def tmBoard : TaskManager :=
  { tasks := [exTask 0 Status.Todo, exTask 1 Status.Done, exTask 2 Status.InProgress],
    github := none, config := configEmpty, current_repo := none }

/-- A session with a connected remote client and a current repository. -/
def tmRemote : TaskManager :=
  { tasks := [], github := some ()
    config := { github_token := some "token", repositories := [repoEx] }
    current_repo := some repoEx }

def inpEx : AddTaskInput :=
  { title := "Write spec", description := "", priority := Priority.Medium,
    due_date := "tomorrow", created_at := "October 12, 2026" }

/-! ## Lemmas: whitespace and lexing -/

theorem skipWs_append (w : List Char) (hw : ∀ x ∈ w, isWs x = true) :
    ∀ l : List Char, skipWs (w ++ l) = skipWs l := by
  induction w with
  | nil => intro l; rfl
  | cons c w ih =>
    intro l
    have hc : isWs c = true := hw c (by simp)
    have hw' : ∀ x ∈ w, isWs x = true := fun x hx => hw x (by simp [hx])
    simp [skipWs, hc, ih hw' l]

theorem skipWs_cons (c : Char) (l : List Char) (h : isWs c = false) :
    skipWs (c :: l) = c :: l := by
  simp [skipWs, h]

theorem pChar_append (c : Char) (w : List Char) (hw : ∀ x ∈ w, isWs x = true)
    (hc : isWs c = false) : ∀ rest, pChar c (w ++ c :: rest) = some rest := by
  intro rest
  simp [pChar, skipWs_append w hw, skipWs_cons c _ hc]

theorem headNonDigit_cons {c : Char} (h : isDigit c = false) (l : List Char) :
    headNonDigit (c :: l) = true := by
  simp [headNonDigit, h]

theorem takeDigits_stop (rest : List Char) (h : headNonDigit rest = true) :
    takeDigits rest = ([], rest) := by
  cases rest with
  | nil => rfl
  | cons c cs =>
    simp [headNonDigit] at h
    simp [takeDigits, h]

theorem takeDigits_append (ds : List Char) (hds : ∀ c ∈ ds, isDigit c = true) :
    ∀ rest, headNonDigit rest = true → takeDigits (ds ++ rest) = (ds, rest) := by
  induction ds with
  | nil => intro rest h; simpa using takeDigits_stop rest h
  | cons c ds ih =>
    intro rest h
    have hc : isDigit c = true := hds c (by simp)
    have hds' : ∀ x ∈ ds, isDigit x = true := fun x hx => hds x (by simp [hx])
    simp [takeDigits, hc, ih hds' rest h]

theorem digitChar_toNat : ∀ d < 10, (Nat.digitChar d).toNat = d + 48 := by
  decide

theorem isDigit_digitChar : ∀ d < 10, isDigit (Nat.digitChar d) = true := by
  decide

theorem digitsVal_append_singleton (ds : List Char) (c : Char) :
    digitsVal (ds ++ [c]) = digitsVal ds * 10 + (c.toNat - '0'.toNat) := by
  simp [digitsVal, List.foldl_append]

theorem not_ws_of_isDigit {c : Char} (h : isDigit c = true) : isWs c = false := by
  simp only [isDigit, Bool.and_eq_true, decide_eq_true_eq] at h
  simp only [isWs, Bool.or_eq_false_iff, decide_eq_false_iff_not]
  refine ⟨⟨⟨?_, ?_⟩, ?_⟩, ?_⟩ <;> rintro rfl <;> revert h <;> decide

theorem ne_n_of_isDigit {c : Char} (h : isDigit c = true) : c ≠ 'n' := by
  rintro rfl; simp [isDigit] at h

/-- `natChars` produces a nonempty all-digit run whose value is `n`,
prepended to the accumulator. -/
theorem natChars_spec : ∀ (fuel n : Nat) (acc : List Char), n < fuel →
    ∃ ds, natChars fuel n acc = ds ++ acc ∧ ds ≠ [] ∧
      (∀ c ∈ ds, isDigit c = true) ∧ digitsVal ds = n := by
  intro fuel
  induction fuel with
  | zero => omega
  | succ fuel ih =>
    intro n acc hn
    by_cases h10 : n < 10
    · refine ⟨[Nat.digitChar n], ?_, by simp, ?_, ?_⟩
      · simp [natChars, h10]
      · intro c hc
        simp at hc
        subst hc
        exact isDigit_digitChar n h10
      · have := digitChar_toNat n h10
        simp [digitsVal]
        omega
    · have hdiv : n / 10 < fuel := by
        have := Nat.div_lt_self (by omega : 0 < n) (by omega : 1 < 10)
        omega
      obtain ⟨ds, heq, hne, hdig, hval⟩ := ih (n / 10) (Nat.digitChar (n % 10) :: acc) hdiv
      refine ⟨ds ++ [Nat.digitChar (n % 10)], ?_, by simp, ?_, ?_⟩
      · simp [natChars, h10, heq]
      · intro c hc
        simp at hc
        rcases hc with hc | hc
        · exact hdig c hc
        · subst hc
          exact isDigit_digitChar _ (Nat.mod_lt _ (by omega))
      · rw [digitsVal_append_singleton, hval]
        have h1 := digitChar_toNat (n % 10) (Nat.mod_lt _ (by omega))
        have h0 : '0'.toNat = 48 := rfl
        omega

/-! ## Lemmas: string escaping round trip -/

theorem hexVal_digitChar : ∀ d < 16, hexVal (Nat.digitChar d) = some d := by
  decide

theorem char_ofNat_toNat {c : Char} (h : c.toNat < 32) : Char.ofNat c.toNat = c := by
  have hv : Nat.isValidChar c.toNat := Or.inl (by omega)
  rw [Char.ofNat, dif_pos hv]
  apply Char.ext
  show UInt32.mk _ = c.val
  congr 1

theorem pStringBody_append : ∀ (s : List Char) (rest : List Char),
    pStringBody (s.flatMap escapeChar ++ '"' :: rest) = some (s, rest) := by
  intro s
  induction s with
  | nil =>
    intro rest
    rw [List.flatMap_nil, List.nil_append, pStringBody.eq_def]
    simp
  | cons c s ih =>
    intro rest
    by_cases h1 : c = '"'
    · subst h1
      have he : escapeChar '"' = ['\\', '"'] := by decide
      rw [List.flatMap_cons, he]
      simp only [List.cons_append, List.nil_append]
      rw [pStringBody.eq_def]
      simp [unescapeChar, ih]
    · by_cases h2 : c = '\\'
      · subst h2
        have he : escapeChar '\\' = ['\\', '\\'] := by decide
        rw [List.flatMap_cons, he]
        simp only [List.cons_append, List.nil_append]
        rw [pStringBody.eq_def]
        simp [unescapeChar, ih]
      · by_cases h3 : c = '\x08'
        · subst h3
          have he : escapeChar '\x08' = ['\\', 'b'] := by decide
          rw [List.flatMap_cons, he]
          simp only [List.cons_append, List.nil_append]
          rw [pStringBody.eq_def]
          simp [unescapeChar, ih]
        · by_cases h4 : c = '\x09'
          · subst h4
            have he : escapeChar '\x09' = ['\\', 't'] := by decide
            rw [List.flatMap_cons, he]
            simp only [List.cons_append, List.nil_append]
            rw [pStringBody.eq_def]
            simp [unescapeChar, ih]
          · by_cases h5 : c = '\x0a'
            · subst h5
              have he : escapeChar '\x0a' = ['\\', 'n'] := by decide
              rw [List.flatMap_cons, he]
              simp only [List.cons_append, List.nil_append]
              rw [pStringBody.eq_def]
              simp [unescapeChar, ih]
            · by_cases h6 : c = '\x0c'
              · subst h6
                have he : escapeChar '\x0c' = ['\\', 'f'] := by decide
                rw [List.flatMap_cons, he]
                simp only [List.cons_append, List.nil_append]
                rw [pStringBody.eq_def]
                simp [unescapeChar, ih]
              · by_cases h7 : c = '\x0d'
                · subst h7
                  have he : escapeChar '\x0d' = ['\\', 'r'] := by decide
                  rw [List.flatMap_cons, he]
                  simp only [List.cons_append, List.nil_append]
                  rw [pStringBody.eq_def]
                  simp [unescapeChar, ih]
                · by_cases h8 : c.toNat < 32
                  · have hdiv : c.toNat / 16 < 16 := by omega
                    have hmod : c.toNat % 16 < 16 := Nat.mod_lt _ (by omega)
                    have h00 : hexVal '0' = some 0 := by decide
                    have he : escapeChar c = ['\\', 'u', '0', '0',
                        Nat.digitChar (c.toNat / 16), Nat.digitChar (c.toNat % 16)] := by
                      simp [escapeChar, h1, h2, h3, h4, h5, h6, h7, h8]
                    rw [List.flatMap_cons, he]
                    simp only [List.cons_append, List.nil_append]
                    rw [pStringBody.eq_def]
                    simp only [reduceIte, reduceCtorEq, h00,
                      hexVal_digitChar _ hdiv, hexVal_digitChar _ hmod, ih]
                    rw [if_neg (show ¬('\\' = '"') by decide)]
                    rw [show (((0 * 16 + 0) * 16 + c.toNat / 16) * 16 + c.toNat % 16)
                        = c.toNat by omega]
                    rw [char_ofNat_toNat h8]
                  · have he : escapeChar c = [c] := by
                      simp [escapeChar, h1, h2, h3, h4, h5, h6, h7, h8]
                    rw [List.flatMap_cons, he]
                    simp only [List.cons_append, List.nil_append]
                    rw [pStringBody.eq_def]
                    simp [h1, h2, h8, ih]

theorem pString_append (w : List Char) (hw : ∀ x ∈ w, isWs x = true) (s : String)
    (rest : List Char) : pString (w ++ (renderString s ++ rest)) = some (s, rest) := by
  rw [pString]
  simp only [renderString, List.append_assoc, List.cons_append, List.nil_append]
  rw [skipWs_append w hw, skipWs_cons _ _ (by decide)]
  simp only [reduceIte, pStringBody_append s.data rest]

theorem pChar_cons (c : Char) (hc : isWs c = false) (rest : List Char) :
    pChar c (c :: rest) = some rest := by
  simpa using pChar_append c [] (by simp) hc rest

theorem pKey_append (w : List Char) (hw : ∀ x ∈ w, isWs x = true) (key : String)
    (tail : List Char) : pKey key (w ++ (renderString key ++ ':' :: tail)) = some tail := by
  rw [pKey, pString_append w hw key (':' :: tail)]
  simp [pChar_cons ':' (by decide) tail]

theorem pNat_append (w : List Char) (hw : ∀ x ∈ w, isWs x = true) (n : Nat)
    (rest : List Char) (hrest : headNonDigit rest = true) :
    pNat (w ++ (renderNat n ++ rest)) = some (n, rest) := by
  obtain ⟨ds, heq, hne, hdig, hval⟩ := natChars_spec (n + 1) n [] (by omega)
  rw [renderNat] at *
  rw [heq, List.append_nil] at *
  obtain ⟨d, ds', rfl⟩ : ∃ d ds', ds = d :: ds' := by
    cases ds with
    | nil => exact absurd rfl hne
    | cons d ds' => exact ⟨d, ds', rfl⟩
  have hd : isDigit d = true := hdig d (by simp)
  simp only [pNat, List.append_assoc, List.cons_append,
    skipWs_append w hw, skipWs_cons d _ (not_ws_of_isDigit hd)]
  rw [← List.cons_append, takeDigits_append _ hdig _ hrest]
  simp [hval]

/-! ## Lemmas: value and field parsers on printed output -/

theorem pOptNat_append (w : List Char) (hw : ∀ x ∈ w, isWs x = true) (o : Option Nat)
    (rest : List Char) (hrest : headNonDigit rest = true) :
    pOptNat (w ++ (renderOptNat o ++ rest)) = some (o, rest) := by
  cases o with
  | none =>
    rw [renderOptNat]
    simp only [List.append_assoc, List.cons_append, List.nil_append]
    rw [pOptNat, skipWs_append w hw, skipWs_cons _ _ (by decide)]
    simp [List.take, List.drop]
  | some n =>
    obtain ⟨ds, heq, hne, hdig, hval⟩ := natChars_spec (n + 1) n [] (by omega)
    have heq' : renderOptNat (some n) = ds := by
      rw [renderOptNat, renderNat, heq, List.append_nil]
    obtain ⟨d, ds', rfl⟩ : ∃ d ds', ds = d :: ds' := by
      cases ds with
      | nil => exact absurd rfl hne
      | cons d ds' => exact ⟨d, ds', rfl⟩
    have hd : isDigit d = true := hdig d (by simp)
    rw [heq']
    simp only [List.append_assoc, List.cons_append]
    rw [pOptNat, skipWs_append w hw, skipWs_cons d _ (not_ws_of_isDigit hd)]
    have hne_n : ¬ ((d :: (ds' ++ rest)).take 4 = ['n', 'u', 'l', 'l']) := by
      intro hcontra
      rw [show (4 : Nat) = 3 + 1 from rfl, List.take_succ_cons] at hcontra
      exact ne_n_of_isDigit hd (List.head_eq_of_cons_eq hcontra)
    rw [if_neg hne_n]
    have hpn : pNat (d :: (ds' ++ rest)) = some (n, rest) := by
      have := pNat_append [] (by simp) n rest hrest
      rw [renderNat, heq, List.append_nil] at this
      simpa using this
    simp [hpn, hval]

theorem pPriority_append (w : List Char) (hw : ∀ x ∈ w, isWs x = true) (p : Priority)
    (rest : List Char) : pPriority (w ++ (renderPriority p ++ rest)) = some (p, rest) := by
  cases p <;>
    (rw [pPriority]
     simp only [renderPriority]
     rw [pString_append w hw _ rest]
     rfl)

theorem pStatus_append (w : List Char) (hw : ∀ x ∈ w, isWs x = true) (s : Status)
    (rest : List Char) : pStatus (w ++ (renderStatus s ++ rest)) = some (s, rest) := by
  cases s <;>
    (rw [pStatus]
     simp only [renderStatus]
     rw [pString_append w hw _ rest]
     rfl)

theorem fieldChars_reassoc (key : String) (v tail : List Char) :
    fieldChars key v ++ tail = renderString key ++ ':' :: ' ' :: (v ++ tail) := by
  simp [fieldChars]

theorem pFieldComma_nat (w : List Char) (hw : ∀ x ∈ w, isWs x = true) :
    ∀ (key : String) (n : Nat) (tail : List Char),
      pFieldComma key pNat (w ++ (fieldChars key (renderNat n) ++ ',' :: tail))
        = some (n, tail) := by
  intro key n tail
  have hp : pNat (' ' :: (renderNat n ++ ',' :: tail)) = some (n, ',' :: tail) := by
    have h2 := pNat_append [' '] (by decide) n (',' :: tail)
      (headNonDigit_cons (by decide) tail)
    simpa using h2
  rw [pFieldComma, fieldChars_reassoc, pKey_append w hw key]
  simp [hp, pChar_cons ',' (by decide) tail]

theorem pFieldComma_string (w : List Char) (hw : ∀ x ∈ w, isWs x = true) :
    ∀ (key : String) (s : String) (tail : List Char),
      pFieldComma key pString (w ++ (fieldChars key (renderString s) ++ ',' :: tail))
        = some (s, tail) := by
  intro key s tail
  have hp : pString (' ' :: (renderString s ++ ',' :: tail)) = some (s, ',' :: tail) := by
    have h2 := pString_append [' '] (by decide) s (',' :: tail)
    simpa using h2
  rw [pFieldComma, fieldChars_reassoc, pKey_append w hw key]
  simp [hp, pChar_cons ',' (by decide) tail]

theorem pFieldComma_priority (w : List Char) (hw : ∀ x ∈ w, isWs x = true) :
    ∀ (key : String) (p : Priority) (tail : List Char),
      pFieldComma key pPriority (w ++ (fieldChars key (renderPriority p) ++ ',' :: tail))
        = some (p, tail) := by
  intro key p tail
  have hp : pPriority (' ' :: (renderPriority p ++ ',' :: tail)) = some (p, ',' :: tail) := by
    have h2 := pPriority_append [' '] (by decide) p (',' :: tail)
    simpa using h2
  rw [pFieldComma, fieldChars_reassoc, pKey_append w hw key]
  simp [hp, pChar_cons ',' (by decide) tail]

theorem pFieldComma_status (w : List Char) (hw : ∀ x ∈ w, isWs x = true) :
    ∀ (key : String) (st : Status) (tail : List Char),
      pFieldComma key pStatus (w ++ (fieldChars key (renderStatus st) ++ ',' :: tail))
        = some (st, tail) := by
  intro key st tail
  have hp : pStatus (' ' :: (renderStatus st ++ ',' :: tail)) = some (st, ',' :: tail) := by
    have h2 := pStatus_append [' '] (by decide) st (',' :: tail)
    simpa using h2
  rw [pFieldComma, fieldChars_reassoc, pKey_append w hw key]
  simp [hp, pChar_cons ',' (by decide) tail]

theorem pFieldComma_optNat (w : List Char) (hw : ∀ x ∈ w, isWs x = true) :
    ∀ (key : String) (o : Option Nat) (tail : List Char),
      pFieldComma key pOptNat (w ++ (fieldChars key (renderOptNat o) ++ ',' :: tail))
        = some (o, tail) := by
  intro key o tail
  have hp : pOptNat (' ' :: (renderOptNat o ++ ',' :: tail)) = some (o, ',' :: tail) := by
    have h2 := pOptNat_append [' '] (by decide) o (',' :: tail)
      (headNonDigit_cons (by decide) tail)
    simpa using h2
  rw [pFieldComma, fieldChars_reassoc, pKey_append w hw key]
  simp [hp, pChar_cons ',' (by decide) tail]

theorem pFieldLast_string (w : List Char) (hw : ∀ x ∈ w, isWs x = true) :
    ∀ (key : String) (s : String) (tail : List Char),
      pFieldLast key pString (w ++ (fieldChars key (renderString s) ++ tail))
        = some (s, tail) := by
  intro key s tail
  have hp : pString (' ' :: (renderString s ++ tail)) = some (s, tail) := by
    have h2 := pString_append [' '] (by decide) s tail
    simpa using h2
  rw [pFieldLast, fieldChars_reassoc, pKey_append w hw key]
  simp [hp]

/-! ## Lemmas: whole-record round trip -/

theorem pTask_append (w : List Char) (hw : ∀ x ∈ w, isWs x = true) (t : Task)
    (rest : List Char) : pTask (w ++ (renderTask t ++ rest)) = some (t, rest) := by
  simp only [pTask, renderTask, List.append_assoc, List.cons_append, List.nil_append,
    pChar_append '\x7b' w hw (by decide),
    pFieldComma_nat nl2 (by decide),
    pFieldComma_string nl2 (by decide),
    pFieldComma_priority nl2 (by decide),
    pFieldComma_status nl2 (by decide),
    pFieldComma_optNat nl2 (by decide),
    pFieldLast_string nl2 (by decide),
    pChar_append '\x7d' nl1 (by decide) (by decide),
    Option.bind_eq_bind, Option.some_bind]
  rfl

theorem pChar_ne_ws (c c' : Char) (w : List Char) (hw : ∀ x ∈ w, isWs x = true)
    (h : ¬ c' = c) (hws : isWs c' = false) (l : List Char) :
    pChar c (w ++ c' :: l) = none := by
  rw [pChar, skipWs_append w hw, skipWs_cons _ _ hws]
  simp [h]

theorem pChar_ne (c c' : Char) (h : ¬ c' = c) (hws : isWs c' = false) (l : List Char) :
    pChar c (c' :: l) = none := by
  simpa using pChar_ne_ws c c' [] (by simp) h hws l

theorem length_le_length_flatMapTasks (ts : List Task) :
    ts.length ≤ (ts.flatMap (fun t' => ',' :: (nl1 ++ renderTask t'))).length := by
  induction ts with
  | nil => simp
  | cons t ts ih =>
    simp only [List.flatMap_cons, List.length_append, List.length_cons]
    omega

theorem pTasksAux_append : ∀ (ts acc : List Task) (rest : List Char) (fuel : Nat),
    ts.length < fuel →
    pTasksAux fuel acc
        (ts.flatMap (fun t' => ',' :: (nl1 ++ renderTask t')) ++ (nl0 ++ ']' :: rest))
      = some (acc.reverse ++ ts, rest) := by
  intro ts
  induction ts with
  | nil =>
    intro acc rest fuel hf
    obtain ⟨fuel, rfl⟩ : ∃ f, fuel = f + 1 := ⟨fuel - 1, by omega⟩
    rw [List.flatMap_nil, List.nil_append, pTasksAux,
      pChar_append ']' nl0 (by decide) (by decide)]
    simp
  | cons t ts ih =>
    intro acc rest fuel hf
    obtain ⟨fuel, rfl⟩ : ∃ f, fuel = f + 1 := ⟨fuel - 1, by omega⟩
    have hf' : ts.length < fuel := by
      simp only [List.length_cons] at hf
      omega
    simp only [List.flatMap_cons, List.append_assoc, List.cons_append, List.nil_append]
    rw [pTasksAux, pChar_ne ']' ',' (by decide) (by decide)]
    simp only [pChar_cons ',' (by decide), pTask_append nl1 (by decide),
      Option.bind_eq_bind, Option.some_bind]
    rw [ih (t :: acc) rest fuel hf']
    simp

theorem pChar_rbracket_renderTask (t : Task) (x : List Char) :
    pChar ']' (nl1 ++ (renderTask t ++ x)) = none := by
  rw [renderTask]
  simp only [List.append_assoc, List.cons_append, List.nil_append]
  exact pChar_ne_ws ']' '\x7b' nl1 (by decide) (by decide) (by decide) _

theorem pTasks_append (ts : List Task) (rest : List Char) :
    pTasks (renderTasks ts ++ rest) = some (ts, rest) := by
  cases ts with
  | nil =>
    rw [renderTasks]
    simp only [List.cons_append, List.nil_append]
    rw [pTasks, pChar_cons '[' (by decide)]
    simp only [Option.bind_eq_bind, Option.some_bind]
    rw [pChar_cons ']' (by decide)]
  | cons t ts =>
    rw [renderTasks]
    simp only [List.append_assoc, List.cons_append, List.nil_append]
    rw [pTasks, pChar_cons '[' (by decide)]
    simp only [Option.bind_eq_bind, Option.some_bind]
    rw [pChar_rbracket_renderTask]
    simp only [pTask_append nl1 (by decide), Option.bind_eq_bind, Option.some_bind]
    have hlen : ts.length
        < (ts.flatMap (fun t' => ',' :: (nl1 ++ renderTask t')) ++ (nl0 ++ ']' :: rest)).length
          + 1 := by
      have := length_le_length_flatMapTasks ts
      simp only [List.length_append]
      omega
    rw [pTasksAux_append ts [t] rest _ hlen]
    simp

/-- The task-record round trip: parsing back a pretty-printed Task Store
recovers it exactly. -/
theorem parseTasks_tasksToString (ts : List Task) :
    parseTasks (tasksToString ts) = some ts := by
  rw [parseTasks]
  have hdata : (tasksToString ts).data = renderTasks ts := rfl
  rw [hdata]
  have h := pTasks_append ts []
  rw [List.append_nil] at h
  rw [h]
  simp [skipWs]

/-! ## The claims -/

/-- C8: Persistence round-trip: for every Task Store, serializing it
(`save_tasks`), reloading the serialized record (`load_tasks`), and
serializing again yields byte-for-byte identical output to the first
serialization.  The load recovers the task list exactly, so the second
`to_string_pretty` output is the same string. -/
theorem save_load_roundtrip (tm : TaskManager) (fs : FS) :
    TaskManager.load_tasks ((tm.save_tasks fs).tasksFile) = Except.ok tm.tasks ∧
    ∃ ts', parseTasks (tasksToString tm.tasks) = some ts'
      ∧ tasksToString ts' = tasksToString tm.tasks := by
  constructor
  · simp [TaskManager.save_tasks, TaskManager.load_tasks, parseTasks_tasksToString]
  · exact ⟨tm.tasks, parseTasks_tasksToString tm.tasks, rfl⟩

/-- C6: Task Store load returns an empty list (not an error) when no record
exists; when a record exists but fails to parse, `load_tasks` returns an
error and the startup caller substitutes the empty list — while a
Configuration record that exists but fails to parse aborts the process
(`expect("Failed to parse config")`). -/
theorem load_policy_asymmetry :
    TaskManager.load_tasks none = Except.ok [] ∧
    (∀ data : String, parseTasks data = none →
      TaskManager.load_tasks (some data) = Except.error () ∧
      TaskManager.startupTasks (some data) = []) ∧
    (∀ data : String, parseConfig data = none →
      TaskManager.load_or_create_config (some data)
        = ConfigLoad.fatal "Failed to parse config") := by
  refine ⟨rfl, ?_, ?_⟩
  · intro data h
    constructor
    · simp [TaskManager.load_tasks, h]
    · simp [TaskManager.startupTasks, TaskManager.load_tasks, h]
  · intro data h
    simp [TaskManager.load_or_create_config, h]

/-- Witness for C6 at the unparsable record `"garbage"`. -/
theorem load_policy_asymmetry_witness :
    TaskManager.load_tasks (some "garbage") = Except.error () ∧
    TaskManager.startupTasks (some "garbage") = [] ∧
    TaskManager.load_or_create_config (some "garbage")
      = ConfigLoad.fatal "Failed to parse config" := by
  have h1 := load_policy_asymmetry.2.1 "garbage" (by decide)
  have h2 := load_policy_asymmetry.2.2 "garbage" (by decide)
  exact ⟨h1.1, h1.2, h2⟩

/-- C10: on an empty Task Store, `update_task` returns early with a message,
performs no save and leaves both the state and the files unchanged (in
particular it never reaches the selection or the index access), and
`list_tasks` prints only the `No tasks found.` message. -/
theorem empty_store_safe_noop (tm : TaskManager) (fs : FS) (i s : Nat)
    (h : tm.tasks = []) :
    tm.update_task fs i s = some (tm, fs, ["No tasks to update."]) ∧
    tm.list_tasks = ["No tasks found."] := by
  have hne : tm.tasks.isEmpty = true := by simp [h]
  constructor
  · simp [TaskManager.update_task, hne]
  · simp [TaskManager.list_tasks, hne]

/-- Witness for C10 at the empty session. -/
theorem empty_store_safe_noop_witness :
    tmEmpty.update_task fsEmpty 5 2 = some (tmEmpty, fsEmpty, ["No tasks to update."]) ∧
    tmEmpty.list_tasks = ["No tasks found."] :=
  empty_store_safe_noop tmEmpty fsEmpty 5 2 rfl

/-- C1 (code bug evidence): with a remote client and current repository
present, the user answering Yes, and `create_issue` succeeding with issue
number 42, the appended Task still carries `github_issue_number = none`:
the `Ok(issue)` arm (src/main.rs:264-268) only prints the issue URL and
never stores `issue.number` on the task built at src/main.rs:239-248.
The success message in the output shows the success path was taken. -/
theorem add_task_drops_returned_issue_number :
    ((tmRemote.add_task fsEmpty inpEx 0 (Except.ok 42)).1.tasks.map
        (fun t => t.github_issue_number)) = [none] ∧
    "✅ GitHub issue created!" ∈ (tmRemote.add_task fsEmpty inpEx 0 (Except.ok 42)).2.2 := by
  decide

/-- C4: with a remote client and a current repository present, if the
`create_issue` call fails the new Task is still appended (with
`github_issue_number = none`) and persisted, and a non-fatal warning is
among the printed messages. -/
theorem add_task_issue_failure_still_persists (tm : TaskManager) (fs : FS)
    (inp : AddTaskInput) (repo : Repository)
    (hg : tm.github = some ()) (hr : tm.current_repo = some repo) :
    (tm.add_task fs inp 0 (Except.error ())).1.tasks
        = tm.tasks ++ [{ id := tm.tasks.length, title := inp.title,
                         description := inp.description, priority := inp.priority,
                         status := Status.Todo, due_date := inp.due_date,
                         github_issue_number := none, created_at := inp.created_at }] ∧
    (tm.add_task fs inp 0 (Except.error ())).2.1.tasksFile
        = some (tasksToString (tm.add_task fs inp 0 (Except.error ())).1.tasks) ∧
    "⚠️  Couldn't create GitHub issue" ∈ (tm.add_task fs inp 0 (Except.error ())).2.2 := by
  refine ⟨rfl, rfl, ?_⟩
  simp [TaskManager.add_task, hg, hr]

/-- Witness for C4: a remote session whose `create_issue` call fails. -/
theorem add_task_issue_failure_still_persists_witness :
    (tmRemote.add_task fsEmpty inpEx 0 (Except.error ())).1.tasks
        = tmRemote.tasks ++ [{ id := tmRemote.tasks.length, title := inpEx.title,
                               description := inpEx.description, priority := inpEx.priority,
                               status := Status.Todo, due_date := inpEx.due_date,
                               github_issue_number := none, created_at := inpEx.created_at }] ∧
    (tmRemote.add_task fsEmpty inpEx 0 (Except.error ())).2.1.tasksFile
        = some (tasksToString (tmRemote.add_task fsEmpty inpEx 0 (Except.error ())).1.tasks) ∧
    "⚠️  Couldn't create GitHub issue" ∈ (tmRemote.add_task fsEmpty inpEx 0 (Except.error ())).2.2 :=
  add_task_issue_failure_still_persists tmRemote fsEmpty inpEx repoEx rfl rfl

/-- C5: `add_repository` appends the new repository and persists the
Configuration exactly when a remote client exists and verification
succeeds; on verification failure, and also when no remote client exists,
state and files are left entirely unchanged. -/
theorem add_repository_append_conditions (tm : TaskManager) (fs : FS)
    (owner rname display_name : String) (v : Except Unit Unit) :
    (tm.github.isSome = true → v = Except.ok () →
      (tm.add_repository fs owner rname display_name v).1.config.repositories
          = tm.config.repositories
            ++ [{ owner := owner, name := rname, display_name := display_name }] ∧
      (tm.add_repository fs owner rname display_name v).2.1.configFile
          = some (configToString (tm.add_repository fs owner rname display_name v).1.config)) ∧
    ((tm.github = none ∨ v ≠ Except.ok ()) →
      (tm.add_repository fs owner rname display_name v).1 = tm ∧
      (tm.add_repository fs owner rname display_name v).2.1 = fs) := by
  constructor
  · intro hg hv
    subst hv
    obtain ⟨u, hu⟩ := Option.isSome_iff_exists.mp hg
    constructor
    · simp [TaskManager.add_repository, hu]
    · simp [TaskManager.add_repository, hu, TaskManager.save_config]
  · intro hcase
    rcases hcase with hg | hv
    · simp [TaskManager.add_repository, hg]
    · cases v with
      | ok u => exact absurd rfl hv
      | error e =>
        cases hgit : tm.github with
        | none => simp [TaskManager.add_repository, hgit]
        | some u => simp [TaskManager.add_repository, hgit]

/-- Witness for C5: one verified add that appends, one failed verification
and one client-less call that both leave everything unchanged. -/
theorem add_repository_append_conditions_witness :
    (tmRemote.add_repository fsEmpty "o" "r" "d" (Except.ok ())).1.config.repositories
        = tmRemote.config.repositories
          ++ [{ owner := "o", name := "r", display_name := "d" }] ∧
    (tmRemote.add_repository fsEmpty "o" "r" "d" (Except.error ())).1 = tmRemote ∧
    (tmRemote.add_repository fsEmpty "o" "r" "d" (Except.error ())).2.1 = fsEmpty ∧
    (tmEmpty.add_repository fsEmpty "o" "r" "d" (Except.ok ())).1 = tmEmpty := by
  have h1 := (add_repository_append_conditions tmRemote fsEmpty "o" "r" "d"
    (Except.ok ())).1 rfl rfl
  have h2 := (add_repository_append_conditions tmRemote fsEmpty "o" "r" "d"
    (Except.error ())).2 (Or.inr (by simp))
  have h3 := (add_repository_append_conditions tmEmpty fsEmpty "o" "r" "d"
    (Except.ok ())).2 (Or.inl rfl)
  exact ⟨h1.1, h2.1, h2.2, h3.1⟩

/-- The non-empty, in-range case of `update_task`, in closed form. -/
theorem update_task_some (tm : TaskManager) (fs : FS) (i s : Nat) (t : Task)
    (ht : tm.tasks[i]? = some t) (hne : tm.tasks.isEmpty = false) :
    tm.update_task fs i s = some ({ tm with tasks := tm.tasks.set i { t with status := statusOfIdx s } }, TaskManager.save_tasks { tm with tasks := tm.tasks.set i { t with status := statusOfIdx s } } fs, ["✅ Task updated!"]) := by
  rw [TaskManager.update_task]
  simp only [hne, Bool.false_eq_true, if_false, ht]

/-- C7: update-task is idempotent: applying the same status to the same
position twice yields exactly the same state, the same serialized record
and the same output as applying it once. -/
theorem update_task_idempotent (tm : TaskManager) (fs : FS) (i s : Nat)
    (h : tm.tasks ≠ []) (hi : i < tm.tasks.length) :
    ((tm.update_task fs i s).bind (fun r => r.1.update_task r.2.1 i s))
      = tm.update_task fs i s := by
  have hne : tm.tasks.isEmpty = false := List.isEmpty_eq_false.mpr h
  obtain ⟨t, ht⟩ : ∃ t, tm.tasks[i]? = some t := ⟨_, List.getElem?_eq_getElem hi⟩
  have h1 := update_task_some tm fs i s t ht hne
  have hne2 : (tm.tasks.set i { t with status := statusOfIdx s }).isEmpty = false := by
    rw [List.isEmpty_eq_false]
    intro hc
    have hlen := congrArg List.length hc
    rw [List.length_set] at hlen
    simp only [List.length_nil] at hlen
    omega
  have hget2 : (tm.tasks.set i { t with status := statusOfIdx s })[i]?
      = some { t with status := statusOfIdx s } :=
    List.getElem?_set_self (by simpa using hi)
  have h2 := update_task_some { tm with tasks := tm.tasks.set i { t with status := statusOfIdx s } } (TaskManager.save_tasks { tm with tasks := tm.tasks.set i { t with status := statusOfIdx s } } fs) i s { t with status := statusOfIdx s } hget2 hne2
  rw [h1, Option.some_bind, h2]
  simp only [List.set_set]
  rfl

/-- Witness for C7 on a one-task store. -/
theorem update_task_idempotent_witness :
    ((tmOne.update_task fsEmpty 0 3).bind (fun r => r.1.update_task r.2.1 0 3))
      = tmOne.update_task fsEmpty 0 3 :=
  update_task_idempotent tmOne fsEmpty 0 3 (by decide) (by decide)

/-- C9: `update_task` mutates only the `status` field of the task at the
selected position: the list keeps its length, every other position is
untouched (so the order is unchanged), and every other field of the
selected task (id, title, description, priority, due_date,
github_issue_number, created_at) is preserved. -/
theorem update_task_frame (tm : TaskManager) (fs : FS) (i s : Nat)
    (h : tm.tasks ≠ []) (hi : i < tm.tasks.length) (t : Task)
    (ht : tm.tasks[i]? = some t) :
    tm.update_task fs i s = some ({ tm with tasks := tm.tasks.set i { t with status := statusOfIdx s } }, TaskManager.save_tasks { tm with tasks := tm.tasks.set i { t with status := statusOfIdx s } } fs, ["✅ Task updated!"]) ∧
    (tm.tasks.set i { t with status := statusOfIdx s }).length = tm.tasks.length ∧
    (∀ j, j ≠ i → (tm.tasks.set i { t with status := statusOfIdx s })[j]? = tm.tasks[j]?) ∧
    (tm.tasks.set i { t with status := statusOfIdx s })[i]? = some { id := t.id, title := t.title, description := t.description, priority := t.priority, status := statusOfIdx s, due_date := t.due_date, github_issue_number := t.github_issue_number, created_at := t.created_at } := by
  have hne : tm.tasks.isEmpty = false := List.isEmpty_eq_false.mpr h
  refine ⟨update_task_some tm fs i s t ht hne, List.length_set tm.tasks i _, ?_, ?_⟩
  · intro j hj
    exact List.getElem?_set_ne (Ne.symm hj)
  · rw [List.getElem?_set_self (by simpa using hi)]

/-- Witness for C9 on a one-task store at position 0 with status index 3. -/
theorem update_task_frame_witness :
    tmOne.update_task fsEmpty 0 3 = some ({ tmOne with tasks := tmOne.tasks.set 0 { exTask 0 Status.Todo with status := statusOfIdx 3 } }, TaskManager.save_tasks { tmOne with tasks := tmOne.tasks.set 0 { exTask 0 Status.Todo with status := statusOfIdx 3 } } fsEmpty, ["✅ Task updated!"]) ∧
    (tmOne.tasks.set 0 { exTask 0 Status.Todo with status := statusOfIdx 3 }).length = tmOne.tasks.length ∧
    (tmOne.tasks.set 0 { exTask 0 Status.Todo with status := statusOfIdx 3 })[7]? = tmOne.tasks[7]? ∧
    (tmOne.tasks.set 0 { exTask 0 Status.Todo with status := statusOfIdx 3 })[0]? = some { id := (exTask 0 Status.Todo).id, title := (exTask 0 Status.Todo).title, description := (exTask 0 Status.Todo).description, priority := (exTask 0 Status.Todo).priority, status := statusOfIdx 3, due_date := (exTask 0 Status.Todo).due_date, github_issue_number := (exTask 0 Status.Todo).github_issue_number, created_at := (exTask 0 Status.Todo).created_at } := by
  have hf := update_task_frame tmOne fsEmpty 0 3 (by decide) (by decide)
    (exTask 0 Status.Todo) rfl
  exact ⟨hf.1, hf.2.1, hf.2.2.1 7 (by decide), hf.2.2.2⟩

/-- One step of `add_task` appends exactly the freshly-built task, whose id
is the task count at creation time. -/
theorem add_task_fst (tm : TaskManager) (fs : FS) (inp : AddTaskInput) (c : Nat)
    (r : Except Unit Nat) :
    (tm.add_task fs inp c r).1 = { tm with tasks := tm.tasks ++ [{ id := tm.tasks.length, title := inp.title, description := inp.description, priority := inp.priority, status := Status.Todo, due_date := inp.due_date, github_issue_number := none, created_at := inp.created_at }] } :=
  rfl

/-- Ids-as-indices is preserved by any run of `add_task` calls. -/
theorem runAddTasks_id_invariant :
    ∀ (calls : List (AddTaskInput × Nat × Except Unit Nat)) (tm : TaskManager) (fs : FS),
    (∀ i, i < tm.tasks.length → ((tm.tasks)[i]?).map Task.id = some i) →
    (runAddTasks calls tm fs).1.tasks.length = tm.tasks.length + calls.length ∧
    (∀ i, i < (runAddTasks calls tm fs).1.tasks.length →
      (((runAddTasks calls tm fs).1.tasks)[i]?).map Task.id = some i) := by
  intro calls
  induction calls with
  | nil =>
    intro tm fs H
    constructor
    · simp [runAddTasks]
    · simpa [runAddTasks] using H
  | cons call rest ih =>
    intro tm fs H
    obtain ⟨inp, ch, res⟩ := call
    have hlen1 : (tm.add_task fs inp ch res).1.tasks.length = tm.tasks.length + 1 := by
      rw [add_task_fst]
      simp
    have Hnew : ∀ i, i < (tm.add_task fs inp ch res).1.tasks.length →
        (((tm.add_task fs inp ch res).1.tasks)[i]?).map Task.id = some i := by
      intro i hi
      rw [hlen1] at hi
      rw [add_task_fst]
      by_cases hcase : i < tm.tasks.length
      · rw [List.getElem?_append_left hcase]
        exact H i hcase
      · have hieq : i = tm.tasks.length := by omega
        subst hieq
        rw [List.getElem?_concat_length]
        simp
    have hstep := ih (tm.add_task fs inp ch res).1 (tm.add_task fs inp ch res).2.1 Hnew
    simp only [runAddTasks]
    constructor
    · rw [hstep.1, hlen1]
      simp only [List.length_cons]
      omega
    · exact hstep.2

/-- C2: starting from an empty Task Store, after any sequence of N add-task
calls the store length is N and the task stored at position i carries
id = i (the id is the task count at creation time, before the append); in
particular the Nth added task's id is N−1. -/
theorem add_task_length_and_id (calls : List (AddTaskInput × Nat × Except Unit Nat))
    (tm : TaskManager) (fs : FS) (h : tm.tasks = []) :
    (runAddTasks calls tm fs).1.tasks.length = calls.length ∧
    ∀ i, i < calls.length →
      (((runAddTasks calls tm fs).1.tasks)[i]?).map Task.id = some i := by
  have h0 : tm.tasks.length = 0 := by rw [h]; rfl
  have h2 := runAddTasks_id_invariant calls tm fs
    (fun i hi => absurd hi (by omega))
  refine ⟨by rw [h2.1]; omega, fun i hi => h2.2 i (by rw [h2.1]; omega)⟩

/-- Witness for C2: two add-task calls starting from the empty store. -/
theorem add_task_length_and_id_witness :
    (runAddTasks [(inpEx, 1, Except.error ()), (inpEx, 1, Except.error ())] tmEmpty fsEmpty).1.tasks.length = 2 ∧
    (((runAddTasks [(inpEx, 1, Except.error ()), (inpEx, 1, Except.error ())] tmEmpty fsEmpty).1.tasks)[1]?).map Task.id = some 1 := by
  have h := add_task_length_and_id
    [(inpEx, 1, Except.error ()), (inpEx, 1, Except.error ())] tmEmpty fsEmpty rfl
  exact ⟨h.1, h.2 1 (by simp)⟩

/-- The four status columns concatenated are a permutation of the task list:
every task lands in exactly the column of its status. -/
theorem columns_perm (ts : List Task) :
    (column Status.Todo ts ++ (column Status.InProgress ts
      ++ (column Status.NeedsHelp ts ++ column Status.Done ts))).Perm ts := by
  rw [List.perm_iff_count]
  intro a
  have hc : ∀ s : Status, a.status = s → (column s ts).count a = ts.count a := by
    intro s hs
    rw [column]
    exact List.count_filter (by simp [hs])
  have hnc : ∀ s : Status, ¬ a.status = s → (column s ts).count a = 0 := by
    intro s hs
    refine List.count_eq_zero_of_not_mem ?_
    intro hmem
    rw [column, List.mem_filter] at hmem
    exact hs (by simpa using hmem.2)
  simp only [List.count_append]
  rcases hst : a.status with h1 | h2 | h3 | h4
  · rw [hc Status.Todo hst, hnc Status.InProgress (by rw [hst]; decide),
      hnc Status.NeedsHelp (by rw [hst]; decide), hnc Status.Done (by rw [hst]; decide)]
    omega
  · rw [hc Status.InProgress hst, hnc Status.Todo (by rw [hst]; decide),
      hnc Status.NeedsHelp (by rw [hst]; decide), hnc Status.Done (by rw [hst]; decide)]
    omega
  · rw [hc Status.NeedsHelp hst, hnc Status.Todo (by rw [hst]; decide),
      hnc Status.InProgress (by rw [hst]; decide), hnc Status.Done (by rw [hst]; decide)]
    omega
  · rw [hc Status.Done hst, hnc Status.Todo (by rw [hst]; decide),
      hnc Status.InProgress (by rw [hst]; decide), hnc Status.NeedsHelp (by rw [hst]; decide)]
    omega

/-- C3: the board view's four status columns, taken in the fixed order Todo,
InProgress, NeedsHelp, Done, are pairwise disjoint, jointly contain exactly
the same multiset of tasks as the source list, and each preserves the
source's relative order (each column is a sublist); the board is a pure
projection of the Task Store (`&self`), computed from it by `filter` alone. -/
theorem kanban_board_partition (tm : TaskManager) :
    ((tm.show_kanban_board.map Prod.snd).flatten).Perm tm.tasks ∧
    (tm.show_kanban_board.map Prod.snd).Pairwise (fun c₁ c₂ => ∀ t ∈ c₁, t ∉ c₂) ∧
    ∀ c ∈ tm.show_kanban_board.map Prod.snd, c.Sublist tm.tasks := by
  have hdisj : ∀ s₁ s₂ : Status, ¬ s₁ = s₂ →
      ∀ t ∈ column s₁ tm.tasks, t ∉ column s₂ tm.tasks := by
    intro s₁ s₂ hne t h₁ h₂
    rw [column, List.mem_filter] at h₁ h₂
    have e₁ : t.status = s₁ := by simpa using h₁.2
    have e₂ : t.status = s₂ := by simpa using h₂.2
    exact hne (e₁ ▸ e₂)
  refine ⟨?_, ?_, ?_⟩
  · simp only [TaskManager.show_kanban_board, List.map_cons, List.map_nil,
      List.flatten_cons, List.flatten_nil, List.append_nil]
    exact columns_perm tm.tasks
  · simp only [TaskManager.show_kanban_board, List.map_cons, List.map_nil,
      List.pairwise_cons, List.mem_cons, List.mem_singleton, List.not_mem_nil,
      List.Pairwise.nil]
    refine ⟨?_, ?_, ?_, by simp⟩
    · intro c hc
      rcases hc with rfl | rfl | hc
      · exact hdisj _ _ (by decide)
      · exact hdisj _ _ (by decide)
      · simp at hc
        subst hc
        exact hdisj _ _ (by decide)
    · intro c hc
      rcases hc with rfl | hc
      · exact hdisj _ _ (by decide)
      · simp at hc
        subst hc
        exact hdisj _ _ (by decide)
    · intro c hc
      simp at hc
      subst hc
      exact hdisj _ _ (by decide)
  · intro c hc
    simp only [TaskManager.show_kanban_board, List.map_cons, List.map_nil,
      List.mem_cons, List.not_mem_nil, or_false] at hc
    rcases hc with rfl | rfl | rfl | rfl <;> exact List.filter_sublist _

/-- Witness for C3 on the spec's board scenario (statuses Todo, Done,
InProgress): the columns jointly permute the list, the Todo column is a
sublist, and the Todo task does not appear in the Done column. -/
theorem kanban_board_partition_witness :
    ((tmBoard.show_kanban_board.map Prod.snd).flatten).Perm tmBoard.tasks ∧
    (column Status.Todo tmBoard.tasks).Sublist tmBoard.tasks ∧
    exTask 0 Status.Todo ∉ column Status.Done tmBoard.tasks := by
  have h := kanban_board_partition tmBoard
  refine ⟨h.1, h.2.2 _ (by simp [TaskManager.show_kanban_board]), ?_⟩
  have hp := List.pairwise_cons.mp h.2.1
  have hR := hp.1 (column Status.Done tmBoard.tasks)
    (by simp [TaskManager.show_kanban_board])
  exact hR (exTask 0 Status.Todo) (by decide)

end TaskFlow
